import Mathlib

/-!
Shallow embedding of the tablet-gateway dispatch layer
(`go/vt/vtgate/tabletgateway.go`) and proofs about it.

The embedding models:
  * `shuffleTablets`  - the cell-biased two-pointer partition-and-shuffle;
  * `withRetry`       - the bounded retry dispatch loop, with an explicit
    environment supplying the responses of the collaborators
    (health check, keyspace event watcher, failover buffer, balancer,
    the inner query function and the random source), and an explicit
    trace of the collaborator calls made;
  * `updateDefaultConnCollation` - the CAS-based default collation cell;
  * `WaitForTablets`  - the startup barrier with its deadline-forgiving defer;
  * `GetServingKeyspaces` and `NewShardError`.

Go machine integers only appear as the u32 collation value, modelled as `Nat`
(no arithmetic is ever performed on it, only equality against 0, so no
wrap-around is involved).  Go's `rand.IntN n` is modelled by an arbitrary
stream `rng : Nat → Nat` reduced mod `n`, which is faithful to the
uniform-range contract `0 ≤ r < n` for `n ≥ 1`.
-/

namespace vtgate

/-- Tablet roles used by the gateway (`topodata.TabletType`). -/
inductive TabletType where
  | PRIMARY
  | REPLICA
  | RDONLY
deriving DecidableEq, Repr

/-- Lower-case rendering used by `topoproto.TabletTypeLString`. -/
def TabletType.lString : TabletType → String
  | .PRIMARY => "primary"
  | .REPLICA => "replica"
  | .RDONLY => "rdonly"

/-- The `(keyspace, shard, tablet_type)` routing triple (`query.Target`). -/
structure Target where
  keyspace : String
  shard : String
  tabletType : TabletType
deriving DecidableEq, Repr

/-- Rendering used in the "no healthy tablet available" message
(stands in for the proto `String()` form of the target). -/
def Target.str (t : Target) : String :=
  t.keyspace ++ "." ++ t.shard ++ "." ++ t.tabletType.lString

/-- The fields of `topodata.Tablet` the gateway reads: the alias (as the
string `topoproto.TabletAliasString` produces), the cell of the alias, and
the default connection collation. -/
structure Tablet where
  Alias : String
  Cell : String
  DefaultConnCollation : Nat
deriving DecidableEq, Repr

/-- A health snapshot entry (`discovery.TabletHealth`): the tablet plus whether
`Conn` is non-nil. -/
structure TabletHealth where
  tablet : Tablet
  hasConn : Bool
deriving DecidableEq, Repr

/-- Swap of two positions of a list, the meaning of the Go parallel
assignment `l[i], l[j] = l[j], l[i]`; out-of-range indices leave the list
unchanged (the proofs below only ever use it in range). -/
def swapL (l : List TabletHealth) (i j : Nat) : List TabletHealth :=
  match l[i]?, l[j]? with
  | some a, some b => (l.set i b).set j a
  | _, _ => l

/-- Cell of the tablet at position `j`, the `tablets[j].Tablet.Alias.Cell`
read; the default is never reached at the in-range indices the loop uses. -/
def cellAt (l : List TabletHealth) (j : Nat) : String :=
  match l[j]? with
  | some t => t.tablet.Cell
  | none => ""

/-- One recorded step of the shuffle loop: the values of `head`, `tail` and
the chosen random index `j` at that iteration. -/
structure ShuffleStep where
  head : Nat
  tail : Nat
  j : Nat
deriving DecidableEq, Repr

/-- The loop body of `shuffleTablets`: `fuel` counts the remaining
iterations of `for i := 0; i < n-1; i++`, and the trace of steps taken is
returned alongside the permuted list. -/
def shuffleLoop (cell : String) (rng : Nat → Nat) :
    List TabletHealth → Nat → Nat → Nat → Nat → List TabletHealth × List ShuffleStep
  | tablets, _, _, _, 0 => (tablets, [])
  | tablets, head, tail, i, fuel + 1 =>
    let j := head + rng i % (tail - head + 1)
    if cellAt tablets j = cell then
      let r := shuffleLoop cell rng (swapL tablets head j) (head + 1) tail (i + 1) fuel
      (r.1, ⟨head, tail, j⟩ :: r.2)
    else
      let r := shuffleLoop cell rng (swapL tablets tail j) head (tail - 1) (i + 1) fuel
      (r.1, ⟨head, tail, j⟩ :: r.2)

/-- The gateway's `shuffleTablets`: same-cell hosts are moved to the front,
other-cell hosts to the back, with `n-1` random swaps. -/
def shuffleTablets (cell : String) (rng : Nat → Nat) (tablets : List TabletHealth) :
    List TabletHealth :=
  (shuffleLoop cell rng tablets 0 (tablets.length - 1) 0 (tablets.length - 1)).1

/-- The step trace of a `shuffleTablets` run, used to state the in-bounds
safety facts about the loop indices. -/
def shuffleTrace (cell : String) (rng : Nat → Nat) (tablets : List TabletHealth) :
    List ShuffleStep :=
  (shuffleLoop cell rng tablets 0 (tablets.length - 1) 0 (tablets.length - 1)).2

theorem length_swapL (l : List TabletHealth) (i j : Nat) :
    (swapL l i j).length = l.length := by
  unfold swapL
  cases hi : l[i]? <;> cases hj : l[j]? <;> simp

theorem get?_of_lt (l : List TabletHealth) (i : Nat) (h : i < l.length) :
    ∃ a, l[i]? = some a :=
  ⟨l[i], List.getElem?_eq_getElem h⟩

theorem get?_swapL (l : List TabletHealth) (i j k : Nat)
    (hi : i < l.length) (hj : j < l.length) :
    (swapL l i j)[k]? =
      if k = j then l[i]? else if k = i then l[j]? else l[k]? := by
  obtain ⟨a, ha⟩ := get?_of_lt l i hi
  obtain ⟨b, hb⟩ := get?_of_lt l j hj
  have hsw : swapL l i j = (l.set i b).set j a := by
    unfold swapL
    rw [ha, hb]
  rw [hsw, ha, hb]
  by_cases hkj : k = j
  · subst hkj
    rw [if_pos rfl, List.getElem?_set_eq_of_lt a (by simpa using hj)]
  · rw [List.getElem?_set_ne (fun h => hkj h.symm), if_neg hkj]
    by_cases hki : k = i
    · subst hki
      rw [if_pos rfl, List.getElem?_set_eq_of_lt b hi]
    · rw [List.getElem?_set_ne (fun h => hki h.symm), if_neg hki]

theorem count_set_some (b a c : TabletHealth) :
    ∀ (l : List TabletHealth) (i : Nat), l[i]? = some c →
      (l.set i b).count a + (if c = a then 1 else 0)
        = l.count a + (if b = a then 1 else 0)
  | [], i, h => by simp at h
  | x :: xs, 0, h => by
    simp only [List.getElem?_cons_zero] at h
    injection h with h
    subst h
    simp only [List.set_cons_zero, List.count_cons, beq_iff_eq]
    split_ifs <;> omega
  | x :: xs, i + 1, h => by
    have ih := count_set_some b a c xs i (by simpa using h)
    simp only [List.set_cons_succ, List.count_cons, beq_iff_eq]
    omega

theorem swapL_perm (l : List TabletHealth) (i j : Nat)
    (hi : i < l.length) (hj : j < l.length) :
    List.Perm (swapL l i j) l := by
  obtain ⟨a, ha⟩ := get?_of_lt l i hi
  obtain ⟨b, hb⟩ := get?_of_lt l j hj
  rw [List.perm_iff_count]
  intro x
  have hsw : swapL l i j = (l.set i b).set j a := by
    unfold swapL
    rw [ha, hb]
  rw [hsw]
  have h1 : (l.set i b)[j]? = some b := by
    by_cases hij : i = j
    · subst hij
      rw [List.getElem?_set_eq_of_lt b (by simpa using hj)]
    · rw [List.getElem?_set_ne hij, hb]
  have c1 := count_set_some a x b (l.set i b) j h1
  have c2 := count_set_some b x a l i ha
  omega

theorem cellAt_eq (l : List TabletHealth) (j : Nat) (t : TabletHealth)
    (h : l[j]? = some t) : cellAt l j = t.tablet.Cell := by
  unfold cellAt
  rw [h]

/-- Loop invariant of `shuffleLoop`: starting from a state where everything
before `head` is same-cell, everything after `tail` is other-cell,
`head ≤ tail < n` and `fuel = tail - head`, the loop returns a permutation
of its input, records exactly `fuel` steps whose indices stay inside
`[head, tail]`, and ends with the same-cell entries forming a prefix. -/
theorem shuffleLoop_spec (cell : String) (rng : Nat → Nat) :
    ∀ (fuel : Nat) (l : List TabletHealth) (head tail i : Nat),
      fuel = tail - head → tail < l.length → head ≤ tail →
      (∀ k t, k < head → l[k]? = some t → t.tablet.Cell = cell) →
      (∀ k t, tail < k → l[k]? = some t → t.tablet.Cell ≠ cell) →
      List.Perm (shuffleLoop cell rng l head tail i fuel).1 l ∧
      (shuffleLoop cell rng l head tail i fuel).2.length = fuel ∧
      (∀ s ∈ (shuffleLoop cell rng l head tail i fuel).2,
        head ≤ s.head ∧ s.head ≤ s.j ∧ s.j ≤ s.tail ∧ s.tail ≤ tail) ∧
      (∀ (p q : Nat) (tp tq : TabletHealth),
        (shuffleLoop cell rng l head tail i fuel).1[p]? = some tp →
        (shuffleLoop cell rng l head tail i fuel).1[q]? = some tq →
        tp.tablet.Cell = cell → tq.tablet.Cell ≠ cell → p < q)
  | 0, l, head, tail, i, hfuel, hlen, hht, hpre, hsuf => by
    have hht' : head = tail := by omega
    subst hht'
    refine ⟨List.Perm.refl l, rfl, by simp [shuffleLoop], ?_⟩
    intro p q tp tq hp hq hcp hcq
    simp only [shuffleLoop] at hp hq
    have hq1 : head ≤ q := by
      by_contra hlt
      exact hcq (hpre q tq (by omega) hq)
    have hp1 : p ≤ head := by
      by_contra hgt
      exact (hsuf p tp (by omega) hp) hcp
    rcases Nat.lt_or_ge p q with h | h
    · exact h
    · exfalso
      have : p = q := by omega
      subst this
      rw [hp] at hq
      injection hq with hq
      subst hq
      exact hcq hcp
  | fuel + 1, l, head, tail, i, hfuel, hlen, hht, hpre, hsuf => by
    have hmod : rng i % (tail - head + 1) < tail - head + 1 :=
      Nat.mod_lt _ (by omega)
    set j := head + rng i % (tail - head + 1) with hjdef
    have hjh : head ≤ j := by omega
    have hjt : j ≤ tail := by omega
    have hjlen : j < l.length := by omega
    have hheadlen : head < l.length := by omega
    have htaillen : tail < l.length := hlen
    by_cases hcell : cellAt l j = cell
    · -- same-cell: swap to the front, advance head
      have hstep : shuffleLoop cell rng l head tail i (fuel + 1) =
          ((shuffleLoop cell rng (swapL l head j) (head + 1) tail (i + 1) fuel).1,
            ⟨head, tail, j⟩ ::
              (shuffleLoop cell rng (swapL l head j) (head + 1) tail (i + 1) fuel).2) := by
        simp only [shuffleLoop]
        rw [← hjdef, if_pos hcell]
      obtain ⟨tj, htj⟩ := get?_of_lt l j hjlen
      have htjc : tj.tablet.Cell = cell := by
        rw [cellAt_eq l j tj htj] at hcell
        exact hcell
      have hswget : ∀ k, (swapL l head j)[k]? =
          if k = j then l[head]? else if k = head then l[j]? else l[k]? :=
        fun k => get?_swapL l head j k hheadlen hjlen
      have ih := shuffleLoop_spec cell rng fuel (swapL l head j) (head + 1) tail (i + 1)
        (by omega) (by rw [length_swapL]; exact hlen) (by omega)
        (by
          intro k t hk hkt
          rw [hswget k] at hkt
          by_cases hkj : k = j
          · rw [if_pos hkj] at hkt
            by_cases hhj : head = j
            · rw [hhj, htj] at hkt
              injection hkt with hkt
              subst hkt
              exact htjc
            · have : k < head := by omega
              exfalso
              omega
          · rw [if_neg hkj] at hkt
            by_cases hkh : k = head
            · rw [if_pos hkh, htj] at hkt
              injection hkt with hkt
              subst hkt
              exact htjc
            · rw [if_neg hkh] at hkt
              exact hpre k t (by omega) hkt)
        (by
          intro k t hk hkt
          rw [hswget k] at hkt
          rw [if_neg (by omega), if_neg (by omega)] at hkt
          exact hsuf k t hk hkt)
      refine ⟨?_, ?_, ?_, ?_⟩
      · rw [hstep]
        exact ih.1.trans (swapL_perm l head j hheadlen hjlen)
      · rw [hstep]
        simp [ih.2.1]
      · rw [hstep]
        intro s hs
        simp only [List.mem_cons] at hs
        rcases hs with hs | hs
        · subst hs
          exact ⟨Nat.le_refl _, hjh, hjt, Nat.le_refl _⟩
        · have := ih.2.2.1 s hs
          exact ⟨by omega, this.2.1, this.2.2.1, this.2.2.2⟩
      · rw [hstep]
        exact ih.2.2.2
    · -- other-cell: swap to the back, retreat tail
      have hstep : shuffleLoop cell rng l head tail i (fuel + 1) =
          ((shuffleLoop cell rng (swapL l tail j) head (tail - 1) (i + 1) fuel).1,
            ⟨head, tail, j⟩ ::
              (shuffleLoop cell rng (swapL l tail j) head (tail - 1) (i + 1) fuel).2) := by
        simp only [shuffleLoop]
        rw [← hjdef, if_neg hcell]
      obtain ⟨tj, htj⟩ := get?_of_lt l j hjlen
      have htjc : tj.tablet.Cell ≠ cell := by
        rw [cellAt_eq l j tj htj] at hcell
        exact hcell
      have hswget : ∀ k, (swapL l tail j)[k]? =
          if k = j then l[tail]? else if k = tail then l[j]? else l[k]? :=
        fun k => get?_swapL l tail j k htaillen hjlen
      have hht1 : head + 1 ≤ tail := by omega
      have ih := shuffleLoop_spec cell rng fuel (swapL l tail j) head (tail - 1) (i + 1)
        (by omega) (by rw [length_swapL]; omega) (by omega)
        (by
          intro k t hk hkt
          rw [hswget k] at hkt
          rw [if_neg (by omega), if_neg (by omega)] at hkt
          exact hpre k t hk hkt)
        (by
          intro k t hk hkt
          rw [hswget k] at hkt
          by_cases hkj : k = j
          · rw [if_pos hkj] at hkt
            by_cases htlj : tail = j
            · rw [htlj, htj] at hkt
              injection hkt with hkt
              subst hkt
              exact htjc
            · exfalso
              omega
          · rw [if_neg hkj] at hkt
            by_cases hktl : k = tail
            · rw [if_pos hktl, htj] at hkt
              injection hkt with hkt
              subst hkt
              exact htjc
            · rw [if_neg hktl] at hkt
              exact hsuf k t (by omega) hkt)
      refine ⟨?_, ?_, ?_, ?_⟩
      · rw [hstep]
        exact ih.1.trans (swapL_perm l tail j htaillen hjlen)
      · rw [hstep]
        simp [ih.2.1]
      · rw [hstep]
        intro s hs
        simp only [List.mem_cons] at hs
        rcases hs with hs | hs
        · subst hs
          exact ⟨Nat.le_refl _, hjh, hjt, Nat.le_refl _⟩
        · have := ih.2.2.1 s hs
          exact ⟨this.1, this.2.1, this.2.2.1, by omega⟩
      · rw [hstep]
        exact ih.2.2.2

theorem get?_none_of_ge (l : List TabletHealth) (k : Nat) (h : l.length ≤ k) :
    l[k]? = none :=
  List.getElem?_eq_none h

/-- C4: for every input list and local cell, `shuffleTablets` returns a
permutation of the input (so the multiset of tablet aliases is preserved),
and every same-cell tablet ends at a strictly smaller index than every
other-cell tablet. -/
theorem shuffleTablets_partition_and_perm (cell : String) (rng : Nat → Nat)
    (tablets : List TabletHealth) :
    List.Perm (shuffleTablets cell rng tablets) tablets ∧
    List.Perm ((shuffleTablets cell rng tablets).map (fun t => t.tablet.Alias))
      (tablets.map (fun t => t.tablet.Alias)) ∧
    ∀ (p q : Nat) (tp tq : TabletHealth),
      (shuffleTablets cell rng tablets)[p]? = some tp →
      (shuffleTablets cell rng tablets)[q]? = some tq →
      tp.tablet.Cell = cell → tq.tablet.Cell ≠ cell → p < q := by
  by_cases h0 : tablets = []
  · subst h0
    refine ⟨by simp [shuffleTablets, shuffleLoop], by simp [shuffleTablets, shuffleLoop], ?_⟩
    intro p q tp tq hp _ _ _
    simp [shuffleTablets, shuffleLoop] at hp
  · have hpos : 0 < tablets.length := List.length_pos.mpr h0
    have hspec := shuffleLoop_spec cell rng (tablets.length - 1) tablets 0
      (tablets.length - 1) 0 rfl (by omega) (by omega)
      (by intro k t hk _; omega)
      (by
        intro k t hk hkt
        rw [get?_none_of_ge tablets k (by omega)] at hkt
        exact absurd hkt (by simp))
    have hperm : List.Perm (shuffleTablets cell rng tablets) tablets := hspec.1
    exact ⟨hperm, hperm.map (fun t => t.tablet.Alias), hspec.2.2.2⟩

/-- Closed instance of C4: on a concrete two-tablet list with one remote-cell
and one local-cell tablet, the hypotheses of the partition property are
discharged by evaluation. -/
theorem shuffleTablets_partition_and_perm_witness :
    (0 : Nat) < 1 ∧
      List.Perm
        (shuffleTablets "a" (fun _ => 0)
          [⟨⟨"t1", "b", 0⟩, true⟩, ⟨⟨"t2", "a", 0⟩, true⟩])
        [⟨⟨"t1", "b", 0⟩, true⟩, ⟨⟨"t2", "a", 0⟩, true⟩] :=
  ⟨(shuffleTablets_partition_and_perm "a" (fun _ => 0)
      [⟨⟨"t1", "b", 0⟩, true⟩, ⟨⟨"t2", "a", 0⟩, true⟩]).2.2 0 1
      ⟨⟨"t2", "a", 0⟩, true⟩ ⟨⟨"t1", "b", 0⟩, true⟩
      (by decide) (by decide) (by decide) (by decide),
    (shuffleTablets_partition_and_perm "a" (fun _ => 0)
      [⟨⟨"t1", "b", 0⟩, true⟩, ⟨⟨"t2", "a", 0⟩, true⟩]).1⟩

/-- C9: `shuffleTablets` is total; it records exactly `n - 1` swap steps, at
every step the loop indices satisfy `head ≤ j ≤ tail ≤ n - 1` (so the
argument `tail - head + 1` handed to the random source is at least 1), and
an empty or single-element list is returned unchanged. -/
theorem shuffleTablets_safety (cell : String) (rng : Nat → Nat)
    (tablets : List TabletHealth) :
    (shuffleTrace cell rng tablets).length = tablets.length - 1 ∧
    (∀ s ∈ shuffleTrace cell rng tablets,
      s.head ≤ s.j ∧ s.j ≤ s.tail ∧ s.tail ≤ tablets.length - 1 ∧
        1 ≤ s.tail - s.head + 1) ∧
    (tablets.length ≤ 1 → shuffleTablets cell rng tablets = tablets) := by
  by_cases h0 : tablets = []
  · subst h0
    exact ⟨rfl, by simp [shuffleTrace, shuffleLoop], fun _ => rfl⟩
  · have hpos : 0 < tablets.length := List.length_pos.mpr h0
    have hspec := shuffleLoop_spec cell rng (tablets.length - 1) tablets 0
      (tablets.length - 1) 0 rfl (by omega) (by omega)
      (by intro k t hk _; omega)
      (by
        intro k t hk hkt
        rw [get?_none_of_ge tablets k (by omega)] at hkt
        exact absurd hkt (by simp))
    refine ⟨hspec.2.1, ?_, ?_⟩
    · intro s hs
      have hb := hspec.2.2.1 s hs
      exact ⟨hb.2.1, hb.2.2.1, by omega, by omega⟩
    · intro hle
      have hm : tablets.length - 1 = 0 := by omega
      unfold shuffleTablets
      rw [hm]
      simp [shuffleLoop]

/-- Closed instance of C9: the safety facts evaluated on a concrete
two-element list (one recorded step) and on a singleton list. -/
theorem shuffleTablets_safety_witness :
    ((0 : Nat) ≤ 0 ∧ (0 : Nat) ≤ 1 ∧ (1 : Nat) ≤ 1 ∧ (1 : Nat) ≤ 1 - 0 + 1) ∧
      shuffleTablets "a" (fun _ => 0) [⟨⟨"t1", "b", 0⟩, true⟩] =
        [⟨⟨"t1", "b", 0⟩, true⟩] :=
  ⟨(shuffleTablets_safety "a" (fun _ => 0)
      [⟨⟨"t1", "b", 0⟩, true⟩, ⟨⟨"t2", "a", 0⟩, true⟩]).2.1 ⟨0, 1, 0⟩ (by decide),
    (shuffleTablets_safety "a" (fun _ => 0) [⟨⟨"t1", "b", 0⟩, true⟩]).2.2 (by decide)⟩

/-- The body of `updateDefaultConnCollation`: `CompareAndSwap(0, collation)`
stores `collation` and returns (no warning) iff the stored value is `0`;
otherwise the stored value is left unchanged and the throttled warning fires
iff `Load()` differs from the tablet's collation.  Returns the new stored
value and whether the warning branch was taken. -/
def updateDefaultConnCollation (stored collation : Nat) : Nat × Bool :=
  if stored = 0 then (collation, false)
  else (stored, decide (stored ≠ collation))

/-- A finite sequence of `updateDefaultConnCollation` calls, returning the
final stored value and the per-call warning flags. -/
def runCollationUpdates (stored : Nat) : List Nat → Nat × List Bool
  | [] => (stored, [])
  | v :: vs =>
    let r := updateDefaultConnCollation stored v
    let rest := runCollationUpdates r.1 vs
    (rest.1, r.2 :: rest.2)

theorem runCollationUpdates_stable (vals : List Nat) :
    ∀ s, s ≠ 0 → (runCollationUpdates s vals).1 = s := by
  induction vals with
  | nil => intro s _; rfl
  | cons v vs ih =>
    intro s hs
    simp only [runCollationUpdates, updateDefaultConnCollation, if_neg hs]
    exact ih s hs

theorem runCollationUpdates_zero (vals : List Nat) :
    (runCollationUpdates 0 vals).1 = ((vals.find? (fun v => v != 0)).getD 0) := by
  induction vals with
  | nil => rfl
  | cons v vs ih =>
    by_cases hv : v = 0
    · subst hv
      simp only [runCollationUpdates, updateDefaultConnCollation, if_pos rfl, List.find?]
      simpa using ih
    · have hstep : runCollationUpdates 0 (v :: vs) =
          ((runCollationUpdates v vs).1, false :: (runCollationUpdates v vs).2) := by
        simp [runCollationUpdates, updateDefaultConnCollation]
      rw [hstep]
      simp only [runCollationUpdates_stable vs v hv]
      have hbne : (v != 0) = true := by simpa using hv
      simp [List.find?, hbne]

theorem runCollationUpdates_warn (k : Nat) :
    ∀ (vals : List Nat) (s v : Nat), vals[k]? = some v →
      (runCollationUpdates s vals).2[k]? =
        some (decide ((runCollationUpdates s (vals.take k)).1 ≠ 0 ∧
          (runCollationUpdates s (vals.take k)).1 ≠ v)) := by
  induction k with
  | zero =>
    intro vals s v hv
    cases vals with
    | nil => simp at hv
    | cons v0 vs =>
      simp only [List.getElem?_cons_zero] at hv
      injection hv with hv
      subst hv
      simp only [List.take_zero, runCollationUpdates]
      by_cases hs : s = 0
      · subst hs
        simp [updateDefaultConnCollation]
      · simp [updateDefaultConnCollation, hs]
  | succ k ih =>
    intro vals s v hv
    cases vals with
    | nil => simp at hv
    | cons v0 vs =>
      simp only [List.getElem?_cons_succ] at hv
      have := ih vs (updateDefaultConnCollation s v0).1 v hv
      simp only [List.take_succ_cons, runCollationUpdates]
      simpa using this

/-- C3 (amended): the stored collation equals the first non-zero value
observed (and stays 0 when every observed value is 0); a non-zero stored
value is never mutated by a later call; and the throttled warning branch is
taken on a call iff the stored value at that call is non-zero and differs
from the observed collation — including when the observed collation is 0.
The original claim's restriction of warnings to non-zero observed values is
refuted by `updateDefaultConnCollation_counterexample`. -/
theorem updateDefaultConnCollation_spec (vals : List Nat) :
    (∀ v, vals.find? (fun v => v != 0) = some v → (runCollationUpdates 0 vals).1 = v) ∧
    ((∀ v ∈ vals, v = 0) → (runCollationUpdates 0 vals).1 = 0) ∧
    (∀ s, s ≠ 0 → (runCollationUpdates s vals).1 = s) ∧
    (∀ k v, vals[k]? = some v →
      ((runCollationUpdates 0 vals).2[k]? = some true ↔
        ((runCollationUpdates 0 (vals.take k)).1 ≠ 0 ∧
          (runCollationUpdates 0 (vals.take k)).1 ≠ v))) := by
  refine ⟨?_, ?_, runCollationUpdates_stable vals, ?_⟩
  · intro v hv
    rw [runCollationUpdates_zero vals, hv]
    rfl
  · intro hall
    rw [runCollationUpdates_zero vals]
    have : vals.find? (fun v => v != 0) = none := by
      rw [List.find?_eq_none]
      intro x hx
      simp [hall x hx]
    rw [this]
    rfl
  · intro k v hv
    rw [runCollationUpdates_warn k vals 0 v hv]
    simp

/-- Closed instance of C3: on the call sequence `[0, 5, 7]` the stored value
ends at the first non-zero observation `5`, and the third call (observing
`7` against stored `5`) takes the warning branch. -/
theorem updateDefaultConnCollation_spec_witness :
    (runCollationUpdates 0 [0, 5, 7]).1 = 5 ∧
      (runCollationUpdates 0 [0, 5, 7]).2[2]? = some true :=
  ⟨(updateDefaultConnCollation_spec [0, 5, 7]).1 5 (by decide),
    ((updateDefaultConnCollation_spec [0, 5, 7]).2.2.2 2 7 (by decide)).mpr
      ⟨by decide, by decide⟩⟩

/-- Counterexample to C3 as stated: the claim says the warning branch is
taken only when the call observes a non-zero collation, but after storing
`5` a call observing `0` fails the compare-and-swap and then warns because
`Load() = 5 ≠ 0`. -/
theorem updateDefaultConnCollation_counterexample :
    ¬ (∀ (vals : List Nat) (k v : Nat), vals[k]? = some v →
        (runCollationUpdates 0 vals).2[k]? = some true → v ≠ 0) := by
  intro h
  exact h [5, 0] 1 0 (by decide) (by decide) rfl

/-- Error codes the gateway surfaces (`vtrpc.Code`). -/
inductive Code where
  | INTERNAL
  | FAILED_PRECONDITION
  | UNAVAILABLE
  | CLUSTER_EVENT
deriving DecidableEq, Repr

/-- Errors as the gateway builds them: `vterrors.Errorf` produces a base
error with a code, `vterrors.Wrapf` wraps an error with a message. -/
inductive VtError where
  | base (code : Code) (msg : String)
  | wrap (txt : String) (err : VtError)
deriving DecidableEq, Repr

/-- Rendering of an error, standing in for Go's `%v`. -/
def VtError.text : VtError → String
  | .base _ m => m
  | .wrap t e => t ++ ": " ++ e.text

/-- Rendering of a possibly-nil error. -/
def errText : Option VtError → String
  | none => "<nil>"
  | some e => e.text

/-- Stands for `buffer.ClusterEventReshardingInProgress` (the constant lives
in the buffer package, outside this file's source). -/
def ClusterEventReshardingInProgress : String :=
  "current keyspace is being resharded"

/-- Stands for `buffer.ClusterEventReparentInProgress`. -/
def ClusterEventReparentInProgress : String :=
  "primary is not serving, there is a reparent operation in progress"

/-- Go `%v` name of a tablet type, used in the allow-list error message. -/
def TabletType.goName : TabletType → String
  | .PRIMARY => "PRIMARY"
  | .REPLICA => "REPLICA"
  | .RDONLY => "RDONLY"

def nonTxnMsg : String :=
  "tabletGateway's query service can only be used for non-transactional queries on replicas"

def allowedTypesMsg (t : TabletType) (allowed : List TabletType) : String :=
  "requested tablet type " ++ t.goName ++
    " is not part of the allowed tablet types for this vtgate: " ++
    toString (allowed.map TabletType.goName)

def inconsistentStateMsg : String :=
  "inconsistent state detected, primary is serving but initially found no available tablet"

def noHealthyTabletMsg (target : Target) : String :=
  "no healthy tablet available for '" ++ target.str ++ "'"

/-- Stands for `vterrors.VT14002()` (no available connection). -/
def VT14002 : VtError := .base .UNAVAILABLE "no available connection"

/-- Stands for `vterrors.VT14003(tablet)` (no connection for tablet). -/
def VT14003 (tabletAlias : String) : VtError :=
  .base .UNAVAILABLE ("no connection for tablet " ++ tabletAlias)

/-- Message of the wrap applied when `buffer.WaitForFailoverEnd` fails. -/
def bufferFailMsg (old : Option VtError) : String :=
  "failed to automatically buffer and retry failed request during failover. original err: "
    ++ errText old

/-- `NewShardError` amends the shard information: nil errors stay nil, a nil
target leaves the error unwrapped, otherwise the error is wrapped once with
`target: {keyspace}.{shard}.{tablet_type}`. -/
def NewShardError (err : Option VtError) (target : Option Target) : Option VtError :=
  match err with
  | none => none
  | some e =>
    match target with
    | some t =>
      some (.wrap ("target: " ++ t.keyspace ++ "." ++ t.shard ++ "." ++
        t.tabletType.lString) e)
    | none => some e

/-- One observable collaborator call made by `withRetry`.  `innerCall`
records the alias of the tablet the query was executed on together with the
`(canRetry, err)` result of the inner function. -/
inductive Event where
  | bufferCall
  | healthCall
  | kevReshardCall
  | kevShouldBufferCall
  | balancerCall
  | innerCall (tabletAlias : String) (canRetry : Bool) (err : Option VtError)
deriving DecidableEq, Repr

/-- The environment of one dispatch: the gateway configuration together
with the responses of every collaborator, indexed by the loop iteration in
which the call is made.  `bufferResp i` is `(retryDone ≠ nil, bufferErr)` of
`buffer.WaitForFailoverEnd`; `shouldBufferResp i` is the
`(primary, shouldBuffer)` pair of `kev.ShouldStartBufferingForTarget`;
`rng i` is the random stream the iteration's shuffle consumes. -/
structure Env where
  retryCount : Nat
  localCell : String
  bufferPresent : Bool
  kevPresent : Bool
  balancerEnabled : Bool
  balancerKeyspaces : List String
  AllowedTabletTypes : List TabletType
  bufferResp : Nat → Bool × Option VtError
  healthy : Nat → List TabletHealth
  resharded : Nat → Bool
  shouldBufferResp : Nat → Option Tablet × Bool
  balancerPick : Target → List TabletHealth → Option TabletHealth
  inner : Nat → Bool × Option VtError
  rng : Nat → Nat → Nat

/-- The mutable state of the retry loop: the `err` variable, the
per-dispatch invalid-tablet set, and the buffered-once flag. -/
structure LoopState where
  err : Option VtError
  invalidTablets : List String
  bufferedOnce : Bool
deriving DecidableEq, Repr

/-- Outcome of one loop iteration: `cont` is Go's `continue` (or falling
through to the next iteration), `stop` is `break`. -/
inductive StepOut where
  | cont (s : LoopState)
  | stop (s : LoopState)
deriving DecidableEq, Repr

def StepOut.state : StepOut → LoopState
  | .cont s => s
  | .stop s => s

def StepOut.isStop : StepOut → Bool
  | .cont _ => false
  | .stop _ => true

/-- Step (a) of the loop body: the `WaitForFailoverEnd` buffer check.
Returns the updated state, the events emitted, and whether the loop breaks
because of a buffer error. -/
def iterBufferStep (env : Env) (target : Target) (inTransaction : Bool) (i : Nat)
    (s : LoopState) : LoopState × List Event × Bool :=
  if env.bufferPresent = true ∧ s.bufferedOnce = false ∧ inTransaction = false ∧
      target.tabletType = TabletType.PRIMARY then
    let s1 := if (env.bufferResp i).1 then { s with bufferedOnce := true } else s
    match (env.bufferResp i).2 with
    | some be =>
      ({ s1 with err := some (.wrap (bufferFailMsg s.err) be) }, [.bufferCall], true)
    | none => (s1, [.bufferCall], false)
  else (s, [], false)

/-- Step (c) of the loop body: tablet selection, either through the
balancer (after filtering out invalid tablets) or by shuffling and taking
the first tablet not yet marked invalid. -/
def selectTablet (env : Env) (target : Target) (i : Nat) (s : LoopState)
    (tablets : List TabletHealth) : Option TabletHealth × List Event :=
  let useBalancer := env.balancerEnabled &&
    (env.balancerKeyspaces.isEmpty || env.balancerKeyspaces.contains target.keyspace)
  if useBalancer then
    let tablets2 := if s.invalidTablets.isEmpty then tablets
      else tablets.filter (fun t => !(s.invalidTablets.contains t.tablet.Alias))
    (env.balancerPick target tablets2, [Event.balancerCall])
  else
    ((shuffleTablets env.localCell (env.rng i) tablets).find?
      (fun t => !(s.invalidTablets.contains t.tablet.Alias)), [])

/-- One iteration of the `withRetry` main loop (iteration index `i`). -/
def iterStep (env : Env) (target : Target) (inTransaction : Bool) (i : Nat)
    (s : LoopState) : StepOut × List Event :=
  let br := iterBufferStep env target inTransaction i s
  let s' := br.1
  let evs := br.2.1
  if br.2.2 then (.stop s', evs)
  else
    let tablets := env.healthy i
    let evs := evs ++ [Event.healthCall]
    if tablets.isEmpty then
      if env.kevPresent = true ∧ target.tabletType = TabletType.PRIMARY then
        let evs := evs ++ [Event.kevReshardCall]
        if env.resharded i then
          (.cont { s' with
            err := some (.base .CLUSTER_EVENT ClusterEventReshardingInProgress) }, evs)
        else
          let evs := evs ++ [Event.kevShouldBufferCall]
          if (env.shouldBufferResp i).2 then
            (.cont { s' with
              err := some (.base .CLUSTER_EVENT ClusterEventReparentInProgress) }, evs)
          else if (env.shouldBufferResp i).1.isSome then
            (.cont { s' with err := some (.base .UNAVAILABLE inconsistentStateMsg) }, evs)
          else
            (.stop { s' with
              err := some (.base .UNAVAILABLE (noHealthyTabletMsg target)) }, evs)
      else
        (.stop { s' with
          err := some (.base .UNAVAILABLE (noHealthyTabletMsg target)) }, evs)
    else
      let sel := selectTablet env target i s' tablets
      let evs := evs ++ sel.2
      match sel.1 with
      | none =>
        if s'.err.isNone then
          (.stop { s' with err := some VT14002 }, evs)
        else
          (.stop s', evs)
      | some th =>
        if th.hasConn = false then
          (.cont { s' with
            err := some (VT14003 th.tablet.Alias),
            invalidTablets := th.tablet.Alias :: s'.invalidTablets }, evs)
        else
          let canRetry := (env.inner i).1
          let e := (env.inner i).2
          let evs := evs ++ [Event.innerCall th.tablet.Alias canRetry e]
          if canRetry then
            (.cont { s' with
              err := e,
              invalidTablets := th.tablet.Alias :: s'.invalidTablets }, evs)
          else
            (.stop { s' with err := e }, evs)

/-- The `for i := 0; i < retryCount+1; i++` loop: `fuel` iterations remain,
the current iteration index is `i`. -/
def runLoop (env : Env) (target : Target) (inTransaction : Bool) :
    Nat → Nat → LoopState → LoopState × List Event
  | 0, _, s => (s, [])
  | fuel + 1, i, s =>
    match iterStep env target inTransaction i s with
    | (.stop s', evs) => (s', evs)
    | (.cont s', evs) =>
      let r := runLoop env target inTransaction fuel (i + 1) s'
      (r.1, evs ++ r.2)

/-- Result of a dispatch: the returned error and the trace of collaborator
calls that were made. -/
structure RetryResult where
  result : Option VtError
  trace : List Event
deriving DecidableEq, Repr

/-- The initial state of the loop: `err = nil`, empty invalid-set,
`bufferedOnce = false`. -/
def initState : LoopState := { err := none, invalidTablets := [], bufferedOnce := false }

/-- The `withRetry` dispatcher: the two pre-flight checks, then the bounded
retry loop, then the `NewShardError` decoration of the loop's error. -/
def withRetry (env : Env) (target : Target) (inTransaction : Bool) : RetryResult :=
  if inTransaction = true ∧ target.tabletType ≠ TabletType.PRIMARY then
    { result := some (.base .INTERNAL nonTxnMsg), trace := [] }
  else if env.AllowedTabletTypes ≠ [] ∧ target.tabletType ∉ env.AllowedTabletTypes then
    { result := some (.base .FAILED_PRECONDITION
        (allowedTypesMsg target.tabletType env.AllowedTabletTypes)), trace := [] }
  else
    let r := runLoop env target inTransaction (env.retryCount + 1) 0 initState
    { result := NewShardError r.1.err (some target), trace := r.2 }

/-- The attempts recorded in a trace: for each execution of the inner query
function, the tablet alias used and the `(canRetry, err)` it returned. -/
def attemptsOf (trace : List Event) : List (String × Bool × Option VtError) :=
  trace.filterMap (fun e =>
    match e with
    | .innerCall a c err => some (a, c, err)
    | _ => none)

/-- Go errors seen by `WaitForTablets`: the model distinguishes
`context.DeadlineExceeded` from every other error, which is all the defer
in the source does. -/
inductive GoError where
  | deadlineExceeded
  | other (msg : String)
deriving DecidableEq, Repr

/-- The collaborators of `WaitForTablets`: whether the keyspace event
watcher exists, and the results of `FindAllTargetsAndKeyspaces`,
`WaitForAllServingTablets` and `WaitForConsistentKeyspaces`. -/
structure WaitEnv where
  kevPresent : Bool
  findAllTargetsAndKeyspaces : Except GoError (List Target × List String)
  waitForAllServingTablets : List Target → Option GoError
  waitForConsistentKeyspaces : List String → Option GoError

/-- The body of `WaitForTablets` before its deferred error rewrite: skip if
no types are requested, find the targets, wait for serving tablets, and if
PRIMARY was requested and the watcher exists wait for consistency. -/
def WaitForTabletsRaw (env : WaitEnv) (tabletTypesToWait : List TabletType) :
    Option GoError :=
  if tabletTypesToWait.isEmpty then none
  else
    match env.findAllTargetsAndKeyspaces with
    | .error e => some e
    | .ok (targets, keyspaces) =>
      match env.waitForAllServingTablets targets with
      | some e => some e
      | none =>
        if TabletType.PRIMARY ∈ tabletTypesToWait ∧ env.kevPresent = true then
          env.waitForConsistentKeyspaces keyspaces
        else none

/-- `WaitForTablets` with its deferred handler applied: a
`context.DeadlineExceeded` outcome is rewritten to nil (degraded-mode
warning only), every other outcome is returned unchanged. -/
def WaitForTablets (env : WaitEnv) (tabletTypesToWait : List TabletType) :
    Option GoError :=
  match WaitForTabletsRaw env tabletTypesToWait with
  | some .deadlineExceeded => none
  | e => e

/-- The keyspace event watcher surface `GetServingKeyspaces` reads. -/
structure KeyspaceEventWatcher where
  servingKeyspaces : List String
deriving DecidableEq, Repr

/-- The gateway's `GetServingKeyspaces`: nil when no watcher exists,
otherwise the watcher's own list. -/
def GetServingKeyspaces (kev : Option KeyspaceEventWatcher) : Option (List String) :=
  match kev with
  | none => none
  | some k => some k.servingKeyspaces

/-- A concrete environment used to instantiate theorems with hypotheses:
no buffer, no watcher, no balancer, empty allow-list, no healthy tablets. -/
def env0 : Env :=
  { retryCount := 2
    localCell := "cell1"
    bufferPresent := false
    kevPresent := false
    balancerEnabled := false
    balancerKeyspaces := []
    AllowedTabletTypes := []
    bufferResp := fun _ => (false, none)
    healthy := fun _ => []
    resharded := fun _ => false
    shouldBufferResp := fun _ => (none, false)
    balancerPick := fun _ _ => none
    inner := fun _ => (false, none)
    rng := fun _ _ => 0 }

/-- C5: a dispatch with `inTransaction = true` and a non-PRIMARY target
returns the INTERNAL "non-transactional queries on replicas only" error
immediately, with an empty call trace — so the failover buffer, the health
view, the balancer and the inner query function are never invoked. -/
theorem withRetry_inTransaction_replica (env : Env) (target : Target)
    (h : target.tabletType ≠ TabletType.PRIMARY) :
    withRetry env target true =
      { result := some (.base .INTERNAL nonTxnMsg), trace := [] } := by
  unfold withRetry
  rw [if_pos ⟨rfl, h⟩]

/-- Closed instance of C5 at a REPLICA target. -/
theorem withRetry_inTransaction_replica_witness :
    withRetry env0 ⟨"ks", "0", TabletType.REPLICA⟩ true =
      { result := some (.base .INTERNAL nonTxnMsg), trace := [] } :=
  withRetry_inTransaction_replica env0 ⟨"ks", "0", TabletType.REPLICA⟩ (by decide)

/-- C6 as frozen is false: when the transaction-on-replica check also
applies, it fires first and the dispatcher returns INTERNAL, not
FAILED_PRECONDITION, even though the allow-list is non-empty and the target
type is not in it. -/
theorem withRetry_allowlist_counterexample :
    ¬ (∀ (env : Env) (target : Target) (inTransaction : Bool),
        env.AllowedTabletTypes ≠ [] → target.tabletType ∉ env.AllowedTabletTypes →
        ∃ m, (withRetry env target inTransaction).result =
          some (.base .FAILED_PRECONDITION m)) := by
  intro h
  obtain ⟨m, hm⟩ := h { env0 with AllowedTabletTypes := [TabletType.RDONLY] }
    ⟨"ks", "0", TabletType.REPLICA⟩ true (by simp) (by decide)
  have hv : (withRetry { env0 with AllowedTabletTypes := [TabletType.RDONLY] }
      ⟨"ks", "0", TabletType.REPLICA⟩ true).result =
      some (.base .INTERNAL nonTxnMsg) := rfl
  rw [hv] at hm
  simp at hm

/-- C6 (amended): provided the transaction-on-replica pre-flight check does
not fire first, a dispatch whose target type is outside a non-empty
allow-list returns FAILED_PRECONDITION with an empty call trace — before
entering the retry loop, so `GetHealthyTabletStats` is never called. -/
theorem withRetry_allowlist (env : Env) (target : Target) (inTransaction : Bool)
    (hpre : ¬(inTransaction = true ∧ target.tabletType ≠ TabletType.PRIMARY))
    (hne : env.AllowedTabletTypes ≠ [])
    (hnm : target.tabletType ∉ env.AllowedTabletTypes) :
    withRetry env target inTransaction =
      { result := some (.base .FAILED_PRECONDITION
          (allowedTypesMsg target.tabletType env.AllowedTabletTypes)),
        trace := [] } := by
  unfold withRetry
  rw [if_neg hpre, if_pos ⟨hne, hnm⟩]

/-- Closed instance of amended C6: RDONLY-only allow-list, REPLICA target,
no transaction. -/
theorem withRetry_allowlist_witness :
    withRetry { env0 with AllowedTabletTypes := [TabletType.RDONLY] }
        ⟨"ks", "0", TabletType.REPLICA⟩ false =
      { result := some (.base .FAILED_PRECONDITION
          (allowedTypesMsg TabletType.REPLICA [TabletType.RDONLY])),
        trace := [] } :=
  withRetry_allowlist { env0 with AllowedTabletTypes := [TabletType.RDONLY] }
    ⟨"ks", "0", TabletType.REPLICA⟩ false (by simp) (by simp) (by decide)

/-- C7: a dispatch that reaches the retry loop returns exactly
`NewShardError` applied to the loop's final error and the target;
`NewShardError` wraps a non-nil error with a non-nil target exactly once
with the `target: {keyspace}.{shard}.{tablet_type}` text, maps nil errors
to nil, and leaves the error unwrapped when the target is nil. -/
theorem withRetry_error_decoration (env : Env) (target : Target) (inTransaction : Bool)
    (hpre1 : ¬(inTransaction = true ∧ target.tabletType ≠ TabletType.PRIMARY))
    (hpre2 : ¬(env.AllowedTabletTypes ≠ [] ∧ target.tabletType ∉ env.AllowedTabletTypes)) :
    (withRetry env target inTransaction).result =
      NewShardError
        (runLoop env target inTransaction (env.retryCount + 1) 0 initState).1.err
        (some target) ∧
    (∀ e t, NewShardError (some e) (some t) =
      some (.wrap ("target: " ++ t.keyspace ++ "." ++ t.shard ++ "." ++
        t.tabletType.lString) e)) ∧
    (∀ t, NewShardError none t = none) ∧
    (∀ e, NewShardError (some e) none = some e) := by
  refine ⟨?_, fun e t => rfl, fun t => rfl, fun e => rfl⟩
  unfold withRetry
  rw [if_neg hpre1, if_neg hpre2]

/-- Closed instance of C7 at a PRIMARY target in the empty-health
environment. -/
theorem withRetry_error_decoration_witness :
    (withRetry env0 ⟨"ks", "0", TabletType.PRIMARY⟩ false).result =
      NewShardError
        (runLoop env0 ⟨"ks", "0", TabletType.PRIMARY⟩ false
          (env0.retryCount + 1) 0 initState).1.err
        (some ⟨"ks", "0", TabletType.PRIMARY⟩) :=
  (withRetry_error_decoration env0 ⟨"ks", "0", TabletType.PRIMARY⟩ false
    (by simp) (by simp [env0])).1

/-- C8: when the wait ends with `context.DeadlineExceeded` the deferred
handler swallows the error and `WaitForTablets` returns nil; every other
non-nil error is returned to the caller, and a nil outcome stays nil. -/
theorem WaitForTablets_deadline (env : WaitEnv) (types : List TabletType)
    (hne : types ≠ []) :
    (WaitForTabletsRaw env types = some GoError.deadlineExceeded →
      WaitForTablets env types = none) ∧
    (∀ e, WaitForTabletsRaw env types = some e → e ≠ GoError.deadlineExceeded →
      WaitForTablets env types = some e) ∧
    (WaitForTabletsRaw env types = none → WaitForTablets env types = none) := by
  refine ⟨?_, ?_, ?_⟩ <;> unfold WaitForTablets
  · intro h
    rw [h]
  · intro e h hd
    rw [h]
    cases e with
    | deadlineExceeded => exact absurd rfl hd
    | other m => rfl
  · intro h
    rw [h]

/-- Closed instance of C8: the topology lookup itself times out, and the
caller sees nil; a distinct failing lookup is propagated. -/
theorem WaitForTablets_deadline_witness :
    WaitForTablets
        ⟨false, .error .deadlineExceeded, fun _ => none, fun _ => none⟩
        [TabletType.REPLICA] = none ∧
      WaitForTablets
        ⟨false, .error (.other "topo down"), fun _ => none, fun _ => none⟩
        [TabletType.REPLICA] = some (.other "topo down") :=
  ⟨(WaitForTablets_deadline
      ⟨false, .error .deadlineExceeded, fun _ => none, fun _ => none⟩
      [TabletType.REPLICA] (by simp)).1 rfl,
    (WaitForTablets_deadline
      ⟨false, .error (.other "topo down"), fun _ => none, fun _ => none⟩
      [TabletType.REPLICA] (by simp)).2.1 (.other "topo down") rfl (by simp)⟩

theorem iterBufferStep_no_err (env : Env) (target : Target) (inTransaction : Bool)
    (i : Nat) (s : LoopState) (hbuf : (env.bufferResp i).2 = none) :
    (iterBufferStep env target inTransaction i s).2.2 = false ∧
    (iterBufferStep env target inTransaction i s).2.1 =
      (if env.bufferPresent = true ∧ s.bufferedOnce = false ∧ inTransaction = false ∧
          target.tabletType = TabletType.PRIMARY then [Event.bufferCall] else []) ∧
    (iterBufferStep env target inTransaction i s).1.err = s.err ∧
    (iterBufferStep env target inTransaction i s).1.invalidTablets = s.invalidTablets := by
  unfold iterBufferStep
  rw [hbuf]
  split_ifs <;> exact ⟨rfl, rfl, rfl, rfl⟩

/-- C2: in an iteration of the retry loop where the health view returns no
tablets, the target is PRIMARY and the keyspace event watcher exists (and
the buffer step reported no error, so the iteration reaches the health
check): resharding is consulted first — if it reports true the error
becomes CLUSTER_EVENT(resharding) and the loop continues without ever
consulting `ShouldStartBufferingForTarget`; otherwise a positive
`shouldBuffer` yields CLUSTER_EVENT(reparent) and continue; otherwise a
visible primary yields UNAVAILABLE(inconsistent state) and continue; only
when none of these hold does the iteration set UNAVAILABLE(no healthy
tablet) and break.  The invalid-set is untouched throughout. -/
theorem iterStep_empty_primary (env : Env) (target : Target) (inTransaction : Bool)
    (i : Nat) (s : LoopState)
    (hks : env.kevPresent = true) (hpt : target.tabletType = TabletType.PRIMARY)
    (hempty : env.healthy i = []) (hbuf : (env.bufferResp i).2 = none) :
    (env.resharded i = true →
      (iterStep env target inTransaction i s).1.isStop = false ∧
      (iterStep env target inTransaction i s).1.state.err =
        some (.base .CLUSTER_EVENT ClusterEventReshardingInProgress) ∧
      (iterStep env target inTransaction i s).2 =
        (iterBufferStep env target inTransaction i s).2.1 ++
          [Event.healthCall] ++ [Event.kevReshardCall] ∧
      Event.kevShouldBufferCall ∉ (iterStep env target inTransaction i s).2) ∧
    (env.resharded i = false → (env.shouldBufferResp i).2 = true →
      (iterStep env target inTransaction i s).1.isStop = false ∧
      (iterStep env target inTransaction i s).1.state.err =
        some (.base .CLUSTER_EVENT ClusterEventReparentInProgress) ∧
      (iterStep env target inTransaction i s).2 =
        (iterBufferStep env target inTransaction i s).2.1 ++
          [Event.healthCall] ++ [Event.kevReshardCall] ++ [Event.kevShouldBufferCall]) ∧
    (env.resharded i = false → (env.shouldBufferResp i).2 = false →
      (env.shouldBufferResp i).1.isSome = true →
      (iterStep env target inTransaction i s).1.isStop = false ∧
      (iterStep env target inTransaction i s).1.state.err =
        some (.base .UNAVAILABLE inconsistentStateMsg)) ∧
    (env.resharded i = false → (env.shouldBufferResp i).2 = false →
      (env.shouldBufferResp i).1 = none →
      (iterStep env target inTransaction i s).1.isStop = true ∧
      (iterStep env target inTransaction i s).1.state.err =
        some (.base .UNAVAILABLE (noHealthyTabletMsg target))) ∧
    (iterStep env target inTransaction i s).1.state.invalidTablets =
      s.invalidTablets := by
  obtain ⟨hb1, hb2, hb3, hb4⟩ := iterBufferStep_no_err env target inTransaction i s hbuf
  refine ⟨?_, ?_, ?_, ?_, ?_⟩
  · intro hr
    refine ⟨?_, ?_, ?_, ?_⟩ <;>
      simp only [iterStep, hb1, hempty, hks, hpt, hr, List.isEmpty_nil,
        Bool.false_eq_true, if_false, if_true, and_self, StepOut.isStop, StepOut.state]
    all_goals rw [hb2]; split_ifs <;> simp
  · intro hr hsb
    refine ⟨?_, ?_, ?_⟩ <;>
      simp only [iterStep, hb1, hempty, hks, hpt, hr, hsb, List.isEmpty_nil,
        Bool.false_eq_true, if_false, if_true, and_self, StepOut.isStop, StepOut.state]
  · intro hr hsb hprim
    refine ⟨?_, ?_⟩ <;>
      simp only [iterStep, hb1, hempty, hks, hpt, hr, hsb, hprim, List.isEmpty_nil,
        Bool.false_eq_true, if_false, if_true, and_self, Option.isSome_some,
        StepOut.isStop, StepOut.state]
  · intro hr hsb hprim
    refine ⟨?_, ?_⟩ <;>
      simp only [iterStep, hb1, hempty, hks, hpt, hr, hsb, hprim, List.isEmpty_nil,
        Bool.false_eq_true, if_false, if_true, and_self, Option.isSome_none,
        StepOut.isStop, StepOut.state]
  · rcases hr : env.resharded i <;> rcases hsb : (env.shouldBufferResp i).2 <;>
      rcases hprim : (env.shouldBufferResp i).1 <;>
      simp only [iterStep, hb1, hb4, hempty, hks, hpt, hr, hsb, hprim, List.isEmpty_nil,
        Bool.false_eq_true, if_false, if_true, and_self, Option.isSome_none,
        Option.isSome_some, StepOut.isStop, StepOut.state]

/-- Closed instance of C2: with an empty health view, a PRIMARY target and
a watcher reporting resharding, the iteration continues with the resharding
cluster event and never consults `ShouldStartBufferingForTarget`. -/
theorem iterStep_empty_primary_witness :
    (iterStep { env0 with kevPresent := true, resharded := fun _ => true }
        ⟨"ks", "0", TabletType.PRIMARY⟩ false 0 initState).1.state.err =
      some (.base .CLUSTER_EVENT ClusterEventReshardingInProgress) ∧
    Event.kevShouldBufferCall ∉
      (iterStep { env0 with kevPresent := true, resharded := fun _ => true }
        ⟨"ks", "0", TabletType.PRIMARY⟩ false 0 initState).2 :=
  ⟨((iterStep_empty_primary { env0 with kevPresent := true, resharded := fun _ => true }
      ⟨"ks", "0", TabletType.PRIMARY⟩ false 0 initState rfl rfl rfl rfl).1 rfl).2.1,
    ((iterStep_empty_primary { env0 with kevPresent := true, resharded := fun _ => true }
      ⟨"ks", "0", TabletType.PRIMARY⟩ false 0 initState rfl rfl rfl rfl).1 rfl).2.2.2⟩

theorem shuffleTablets_perm (cell : String) (rng : Nat → Nat)
    (tablets : List TabletHealth) :
    List.Perm (shuffleTablets cell rng tablets) tablets := by
  by_cases h0 : tablets = []
  · subst h0
    simp [shuffleTablets, shuffleLoop]
  · have hpos : 0 < tablets.length := List.length_pos.mpr h0
    exact (shuffleLoop_spec cell rng (tablets.length - 1) tablets 0 (tablets.length - 1) 0
      rfl (by omega) (by omega) (by intro k t hk _; omega)
      (by
        intro k t hk hkt
        rw [get?_none_of_ge tablets k (by omega)] at hkt
        exact absurd hkt (by simp))).1

theorem getLast?_cons_ne {α : Type} (a : α) (l : List α) (h : l ≠ []) :
    (a :: l).getLast? = l.getLast? := by
  cases l with
  | nil => exact absurd rfl h
  | cons b bs => simp [List.getLast?]

theorem selectTablet_mem (env : Env) (target : Target) (i : Nat) (s : LoopState)
    (tablets : List TabletHealth) (th : TabletHealth)
    (hpick : ∀ (tgt : Target) (l : List TabletHealth) (t : TabletHealth),
      env.balancerPick tgt l = some t → t ∈ l)
    (hsel : (selectTablet env target i s tablets).1 = some th) :
    th ∈ tablets ∧ th.tablet.Alias ∉ s.invalidTablets := by
  simp only [selectTablet] at hsel
  by_cases hub : (env.balancerEnabled &&
      (env.balancerKeyspaces.isEmpty ||
        env.balancerKeyspaces.contains target.keyspace)) = true
  · rw [if_pos hub] at hsel
    have hmem := hpick _ _ _ hsel
    by_cases hinv : s.invalidTablets.isEmpty = true
    · rw [if_pos hinv] at hmem
      have : s.invalidTablets = [] := List.isEmpty_iff.mp hinv
      rw [this]
      exact ⟨hmem, by simp⟩
    · rw [if_neg hinv] at hmem
      have := List.mem_filter.mp hmem
      refine ⟨this.1, ?_⟩
      have hc := this.2
      simp only [Bool.not_eq_true'] at hc
      intro hmem2
      rw [List.contains_eq_any_beq] at hc
      simp [List.any_eq_true] at hc
      exact hc _ hmem2 rfl
  · rw [if_neg hub] at hsel
    have hmem := List.mem_of_find?_eq_some hsel
    have hpred := List.find?_some hsel
    refine ⟨(shuffleTablets_perm env.localCell (env.rng i) tablets).mem_iff.mp hmem, ?_⟩
    simp only [Bool.not_eq_true'] at hpred
    intro hmem2
    rw [List.contains_eq_any_beq] at hpred
    simp [List.any_eq_true] at hpred
    exact hpred _ hmem2 rfl

theorem selectTablet_isSome (env : Env) (target : Target) (i : Nat) (s : LoopState)
    (tablets : List TabletHealth)
    (hpick2 : ∀ (tgt : Target) (l : List TabletHealth), l ≠ [] →
      (env.balancerPick tgt l).isSome = true)
    (hav : ∃ t ∈ tablets, t.tablet.Alias ∉ s.invalidTablets) :
    (selectTablet env target i s tablets).1.isSome = true := by
  obtain ⟨t, htm, hti⟩ := hav
  have hpt : (!(s.invalidTablets.contains t.tablet.Alias)) = true := by
    simp only [Bool.not_eq_true']
    rw [List.contains_eq_any_beq]
    simp [List.any_eq_true]
    intro x hx hbx
    exact absurd (hbx ▸ hx) hti
  simp only [selectTablet]
  by_cases hub : (env.balancerEnabled &&
      (env.balancerKeyspaces.isEmpty ||
        env.balancerKeyspaces.contains target.keyspace)) = true
  · rw [if_pos hub]
    apply hpick2
    by_cases hinv : s.invalidTablets.isEmpty = true
    · rw [if_pos hinv]
      exact List.ne_nil_of_mem htm
    · rw [if_neg hinv]
      exact List.ne_nil_of_mem (List.mem_filter.mpr ⟨htm, hpt⟩)
  · rw [if_neg hub]
    show ((shuffleTablets env.localCell (env.rng i) tablets).find? _).isSome = true
    rw [List.find?_isSome]
    exact ⟨t, (shuffleTablets_perm env.localCell (env.rng i) tablets).mem_iff.mpr htm, hpt⟩

theorem attemptsOf_selectTablet (env : Env) (target : Target) (i : Nat)
    (s : LoopState) (tablets : List TabletHealth) :
    attemptsOf (selectTablet env target i s tablets).2 = [] := by
  simp only [selectTablet]
  split_ifs <;> rfl

theorem attemptsOf_bufferStep (env : Env) (target : Target) (inTransaction : Bool)
    (i : Nat) (s : LoopState) (hbuf : (env.bufferResp i).2 = none) :
    attemptsOf (iterBufferStep env target inTransaction i s).2.1 = [] := by
  rw [(iterBufferStep_no_err env target inTransaction i s hbuf).2.1]
  split_ifs <;> rfl

theorem iterStep_attempt (env : Env) (target : Target) (inTransaction : Bool) (i : Nat)
    (s : LoopState) (th : TabletHealth) (e : Option VtError)
    (hbuf : (env.bufferResp i).2 = none)
    (hne : env.healthy i ≠ [])
    (hsel : (selectTablet env target i (iterBufferStep env target inTransaction i s).1
        (env.healthy i)).1 = some th)
    (hconn : th.hasConn = true)
    (hinner : env.inner i = (true, e)) :
    iterStep env target inTransaction i s =
      (.cont
        { err := e,
          invalidTablets := th.tablet.Alias ::
            (iterBufferStep env target inTransaction i s).1.invalidTablets,
          bufferedOnce := (iterBufferStep env target inTransaction i s).1.bufferedOnce },
        (iterBufferStep env target inTransaction i s).2.1 ++ [Event.healthCall] ++
          (selectTablet env target i (iterBufferStep env target inTransaction i s).1
            (env.healthy i)).2 ++ [Event.innerCall th.tablet.Alias true e]) := by
  have hb1 := (iterBufferStep_no_err env target inTransaction i s hbuf).1
  have hie : (env.healthy i).isEmpty = false := by simp [hne]
  simp only [iterStep]
  rw [hb1, hie, hsel]
  simp [hconn, hinner]

theorem iterStep_no_candidate (env : Env) (target : Target) (inTransaction : Bool)
    (i : Nat) (s : LoopState)
    (hbuf : (env.bufferResp i).2 = none)
    (hne : env.healthy i ≠ [])
    (hsel : (selectTablet env target i (iterBufferStep env target inTransaction i s).1
        (env.healthy i)).1 = none)
    (herr : s.err.isNone = false) :
    iterStep env target inTransaction i s =
      (.stop (iterBufferStep env target inTransaction i s).1,
        (iterBufferStep env target inTransaction i s).2.1 ++ [Event.healthCall] ++
          (selectTablet env target i (iterBufferStep env target inTransaction i s).1
            (env.healthy i)).2) := by
  have hb := iterBufferStep_no_err env target inTransaction i s hbuf
  have hie : (env.healthy i).isEmpty = false := by simp [hne]
  have herr' : (iterBufferStep env target inTransaction i s).1.err.isNone = false := by
    rw [hb.2.2.1]
    exact herr
  simp only [iterStep]
  rw [hb.1, hie, hsel]
  simp [herr']

theorem attemptsOf_append (l1 l2 : List Event) :
    attemptsOf (l1 ++ l2) = attemptsOf l1 ++ attemptsOf l2 :=
  List.filterMap_append l1 l2 _

theorem count_healthCall_selectTablet (env : Env) (target : Target) (i : Nat)
    (s : LoopState) (tablets : List TabletHealth) :
    (selectTablet env target i s tablets).2.count Event.healthCall = 0 := by
  simp only [selectTablet]
  split_ifs <;> rfl

theorem count_healthCall_bufferStep (env : Env) (target : Target)
    (inTransaction : Bool) (i : Nat) (s : LoopState)
    (hbuf : (env.bufferResp i).2 = none) :
    ((iterBufferStep env target inTransaction i s).2.1).count Event.healthCall = 0 := by
  rw [(iterBufferStep_no_err env target inTransaction i s hbuf).2.1]
  split_ifs <;> rfl

/-- Loop invariant of `withRetry` under a fixed candidate set `T` whose
members all have connections, a buffer that never errors, an inner function
that always reports a retryable error, and a balancer that picks members of
its candidate list (and something whenever candidates remain): the attempts
use pairwise distinct aliases never taken from the invalid-set, at most one
per remaining iteration, and the final `err` is the error of the last
attempt (or the incoming one if no attempt was made). -/
theorem runLoop_allRetry (env : Env) (target : Target) (inTransaction : Bool)
    (T : List TabletHealth)
    (hfix : ∀ n, env.healthy n = T)
    (hT : T ≠ [])
    (hconn : ∀ t ∈ T, t.hasConn = true)
    (hbufe : ∀ n, (env.bufferResp n).2 = none)
    (hinner : ∀ n, (env.inner n).1 = true ∧ (env.inner n).2.isSome = true)
    (hpick : ∀ (tgt : Target) (l : List TabletHealth) (t : TabletHealth),
      env.balancerPick tgt l = some t → t ∈ l)
    (hpick2 : ∀ (tgt : Target) (l : List TabletHealth), l ≠ [] →
      (env.balancerPick tgt l).isSome = true) :
    ∀ (fuel i : Nat) (s : LoopState),
      (s.err = none → ∃ t ∈ T, t.tablet.Alias ∉ s.invalidTablets) →
      (attemptsOf (runLoop env target inTransaction fuel i s).2).length ≤ fuel ∧
      (∀ x ∈ attemptsOf (runLoop env target inTransaction fuel i s).2,
        x.1 ∉ s.invalidTablets ∧ x.2.1 = true ∧ x.2.2.isSome = true) ∧
      ((attemptsOf (runLoop env target inTransaction fuel i s).2).map
        (fun x => x.1)).Nodup ∧
      (attemptsOf (runLoop env target inTransaction fuel i s).2 = [] →
        (runLoop env target inTransaction fuel i s).1.err = s.err) ∧
      (∀ last, (attemptsOf (runLoop env target inTransaction fuel i s).2).getLast? =
        some last → (runLoop env target inTransaction fuel i s).1.err = last.2.2) ∧
      (fuel ≠ 0 → (∃ t ∈ T, t.tablet.Alias ∉ s.invalidTablets) →
        attemptsOf (runLoop env target inTransaction fuel i s).2 ≠ []) ∧
      (runLoop env target inTransaction fuel i s).2.count Event.healthCall ≤ fuel
  | 0, i, s, hseed => by
    refine ⟨by simp [runLoop, attemptsOf], ?_, ?_, ?_, ?_, ?_, ?_⟩
    · intro x hx
      simp [runLoop, attemptsOf] at hx
    · simp [runLoop, attemptsOf]
    · intro _
      rfl
    · intro last hlast
      simp [runLoop, attemptsOf] at hlast
    · intro h
      exact absurd rfl h
    · simp [runLoop]
  | fuel + 1, i, s, hseed => by
    have hb := iterBufferStep_no_err env target inTransaction i s (hbufe i)
    by_cases hav : ∃ t ∈ T, t.tablet.Alias ∉ s.invalidTablets
    · -- a candidate is still available: this iteration executes an attempt
      have hav' : ∃ t ∈ env.healthy i,
          t.tablet.Alias ∉ (iterBufferStep env target inTransaction i s).1.invalidTablets := by
        rw [hfix i, hb.2.2.2]
        exact hav
      have hsome := selectTablet_isSome env target i
        (iterBufferStep env target inTransaction i s).1 (env.healthy i) hpick2 hav'
      obtain ⟨th, hth⟩ := Option.isSome_iff_exists.mp hsome
      have hmem := selectTablet_mem env target i
        (iterBufferStep env target inTransaction i s).1 (env.healthy i) th hpick hth
      have hmemT : th ∈ T := by
        have := hmem.1
        rw [hfix i] at this
        exact this
      have hninv : th.tablet.Alias ∉ s.invalidTablets := by
        have := hmem.2
        rw [hb.2.2.2] at this
        exact this
      have hinner' : env.inner i = (true, (env.inner i).2) := by
        have h1 := (hinner i).1
        rw [← h1]
      have hstep := iterStep_attempt env target inTransaction i s th
        ((env.inner i).2) (hbufe i) (by rw [hfix i]; exact hT) hth
        (hconn th hmemT) hinner'
      have hloop : runLoop env target inTransaction (fuel + 1) i s =
          ((runLoop env target inTransaction fuel (i + 1)
              { err := (env.inner i).2,
                invalidTablets := th.tablet.Alias ::
                  (iterBufferStep env target inTransaction i s).1.invalidTablets,
                bufferedOnce := (iterBufferStep env target inTransaction i s).1.bufferedOnce }).1,
            ((iterBufferStep env target inTransaction i s).2.1 ++ [Event.healthCall] ++
              (selectTablet env target i (iterBufferStep env target inTransaction i s).1
                (env.healthy i)).2 ++
              [Event.innerCall th.tablet.Alias true ((env.inner i).2)]) ++
            (runLoop env target inTransaction fuel (i + 1)
              { err := (env.inner i).2,
                invalidTablets := th.tablet.Alias ::
                  (iterBufferStep env target inTransaction i s).1.invalidTablets,
                bufferedOnce := (iterBufferStep env target inTransaction i s).1.bufferedOnce }).2) := by
        simp only [runLoop, hstep]
      have ih := runLoop_allRetry env target inTransaction T hfix hT hconn hbufe hinner
        hpick hpick2 fuel (i + 1)
        { err := (env.inner i).2,
          invalidTablets := th.tablet.Alias ::
            (iterBufferStep env target inTransaction i s).1.invalidTablets,
          bufferedOnce := (iterBufferStep env target inTransaction i s).1.bufferedOnce }
        (by
          intro h
          simp only at h
          exact absurd ((hinner i).2) (by rw [h]; simp))
      have hatt : attemptsOf (runLoop env target inTransaction (fuel + 1) i s).2 =
          (th.tablet.Alias, true, (env.inner i).2) ::
            attemptsOf (runLoop env target inTransaction fuel (i + 1)
              { err := (env.inner i).2,
                invalidTablets := th.tablet.Alias ::
                  (iterBufferStep env target inTransaction i s).1.invalidTablets,
                bufferedOnce := (iterBufferStep env target inTransaction i s).1.bufferedOnce }).2 := by
        rw [hloop]
        simp only [attemptsOf_append,
          attemptsOf_bufferStep env target inTransaction i s (hbufe i),
          attemptsOf_selectTablet]
        rfl
      have hE : (runLoop env target inTransaction (fuel + 1) i s).1.err =
          (runLoop env target inTransaction fuel (i + 1)
            { err := (env.inner i).2,
              invalidTablets := th.tablet.Alias ::
                (iterBufferStep env target inTransaction i s).1.invalidTablets,
              bufferedOnce := (iterBufferStep env target inTransaction i s).1.bufferedOnce }).1.err := by
        rw [hloop]
      refine ⟨?_, ?_, ?_, ?_, ?_, ?_, ?_⟩
      · rw [hatt]
        simp only [List.length_cons]
        have := ih.1
        omega
      · intro x hx
        rw [hatt] at hx
        rcases List.mem_cons.mp hx with hx | hx
        · subst hx
          exact ⟨hninv, rfl, (hinner i).2⟩
        · have h2 := ih.2.1 x hx
          refine ⟨?_, h2.2⟩
          intro hmem2
          apply h2.1
          simp only [List.mem_cons]
          right
          rw [hb.2.2.2]
          exact hmem2
      · rw [hatt, List.map_cons]
        refine List.Nodup.cons ?_ ih.2.2.1
        intro hmm
        obtain ⟨x, hx, hxa⟩ := List.mem_map.mp hmm
        have h2 := ih.2.1 x hx
        apply h2.1
        rw [hxa]
        simp
      · intro h
        rw [hatt] at h
        cases h
      · intro last hlast
        rw [hatt] at hlast
        rw [hE]
        by_cases htail : attemptsOf (runLoop env target inTransaction fuel (i + 1)
            { err := (env.inner i).2,
              invalidTablets := th.tablet.Alias ::
                (iterBufferStep env target inTransaction i s).1.invalidTablets,
              bufferedOnce := (iterBufferStep env target inTransaction i s).1.bufferedOnce }).2 = []
        · rw [htail] at hlast
          simp only [List.getLast?_singleton] at hlast
          injection hlast with hlast
          subst hlast
          exact ih.2.2.2.1 htail
        · rw [getLast?_cons_ne _ _ htail] at hlast
          exact ih.2.2.2.2.1 last hlast
      · intro _ _
        rw [hatt]
        simp
      · rw [hloop]
        simp only [List.count_append,
          count_healthCall_bufferStep env target inTransaction i s (hbufe i),
          count_healthCall_selectTablet, List.count_cons, List.count_nil]
        have := ih.2.2.2.2.2.2
        simp only [List.count_cons, List.count_nil] at this ⊢
        simp
        omega
    · -- every candidate is already invalid: the loop breaks preserving err
      have hserr : s.err.isNone = false := by
        cases hE : s.err with
        | none => exact absurd (hseed hE) hav
        | some _ => rfl
      have hselnone : (selectTablet env target i
          (iterBufferStep env target inTransaction i s).1 (env.healthy i)).1 = none := by
        cases hsel : (selectTablet env target i
            (iterBufferStep env target inTransaction i s).1 (env.healthy i)).1 with
        | none => rfl
        | some th =>
          exfalso
          have hmem := selectTablet_mem env target i
            (iterBufferStep env target inTransaction i s).1 (env.healthy i) th hpick hsel
          apply hav
          refine ⟨th, ?_, ?_⟩
          · have := hmem.1
            rw [hfix i] at this
            exact this
          · have := hmem.2
            rw [hb.2.2.2] at this
            exact this
      have hstep := iterStep_no_candidate env target inTransaction i s (hbufe i)
        (by rw [hfix i]; exact hT) hselnone hserr
      have hloop : runLoop env target inTransaction (fuel + 1) i s =
          ((iterBufferStep env target inTransaction i s).1,
            (iterBufferStep env target inTransaction i s).2.1 ++ [Event.healthCall] ++
              (selectTablet env target i (iterBufferStep env target inTransaction i s).1
                (env.healthy i)).2) := by
        simp only [runLoop, hstep]
      have hattnil : attemptsOf (runLoop env target inTransaction (fuel + 1) i s).2 = [] := by
        rw [hloop]
        simp only [attemptsOf_append,
          attemptsOf_bufferStep env target inTransaction i s (hbufe i),
          attemptsOf_selectTablet]
        rfl
      refine ⟨?_, ?_, ?_, ?_, ?_, ?_, ?_⟩
      · rw [hattnil]
        simp
      · intro x hx
        rw [hattnil] at hx
        cases hx
      · rw [hattnil]
        simp
      · intro _
        rw [hloop]
        exact hb.2.2.1
      · intro last hlast
        rw [hattnil] at hlast
        simp at hlast
      · intro _ hav2
        exact absurd hav2 hav
      · rw [hloop]
        simp only [List.count_append,
          count_healthCall_bufferStep env target inTransaction i s (hbufe i),
          count_healthCall_selectTablet]
        simp

/-- C1: in a dispatch over a fixed candidate set `T` of size at most
`retryCount + 1` in which every executed attempt reports a retryable
failure (with an error), each distinct tablet alias is attempted at most
once (the aliases of the attempts are pairwise distinct, because an alias
entering the invalid-set is never selected again), the loop runs at most
`retryCount + 1` iterations (at most that many health-view calls and
attempts), and the returned error is the last attempt's error wrapped with
the target.  The hypotheses also require a non-erroring buffer and a
balancer that picks from its candidates, which is all the loop needs to
reach the attempts. -/
theorem withRetry_allRetry_spec (env : Env) (target : Target) (inTransaction : Bool)
    (T : List TabletHealth)
    (hpre1 : ¬(inTransaction = true ∧ target.tabletType ≠ TabletType.PRIMARY))
    (hpre2 : ¬(env.AllowedTabletTypes ≠ [] ∧ target.tabletType ∉ env.AllowedTabletTypes))
    (hfix : ∀ n, env.healthy n = T)
    (hT : T ≠ [])
    (hsize : T.length ≤ env.retryCount + 1)
    (hconn : ∀ t ∈ T, t.hasConn = true)
    (hbufe : ∀ n, (env.bufferResp n).2 = none)
    (hinner : ∀ n, (env.inner n).1 = true ∧ (env.inner n).2.isSome = true)
    (hpick : ∀ (tgt : Target) (l : List TabletHealth) (t : TabletHealth),
      env.balancerPick tgt l = some t → t ∈ l)
    (hpick2 : ∀ (tgt : Target) (l : List TabletHealth), l ≠ [] →
      (env.balancerPick tgt l).isSome = true) :
    ((attemptsOf (withRetry env target inTransaction).trace).map (fun x => x.1)).Nodup ∧
    (attemptsOf (withRetry env target inTransaction).trace).length ≤ env.retryCount + 1 ∧
    (withRetry env target inTransaction).trace.count Event.healthCall ≤
      env.retryCount + 1 ∧
    ∃ last, (attemptsOf (withRetry env target inTransaction).trace).getLast? = some last ∧
      ∃ e, last.2.2 = some e ∧
        (withRetry env target inTransaction).result =
          some (.wrap ("target: " ++ target.keyspace ++ "." ++ target.shard ++ "." ++
            target.tabletType.lString) e) := by
  have hw : withRetry env target inTransaction =
      { result := NewShardError
          (runLoop env target inTransaction (env.retryCount + 1) 0 initState).1.err
          (some target),
        trace := (runLoop env target inTransaction (env.retryCount + 1) 0 initState).2 } := by
    unfold withRetry
    rw [if_neg hpre1, if_neg hpre2]
  have havail : ∃ t ∈ T, t.tablet.Alias ∉ initState.invalidTablets := by
    obtain ⟨t, ht⟩ := List.exists_mem_of_ne_nil T hT
    exact ⟨t, ht, by simp [initState]⟩
  have hrl := runLoop_allRetry env target inTransaction T hfix hT hconn hbufe hinner
    hpick hpick2 (env.retryCount + 1) 0 initState (fun _ => havail)
  have hne : attemptsOf (runLoop env target inTransaction (env.retryCount + 1) 0
      initState).2 ≠ [] :=
    hrl.2.2.2.2.2.1 (by omega) havail
  obtain ⟨last, hlast⟩ : ∃ last,
      (attemptsOf (runLoop env target inTransaction (env.retryCount + 1) 0
        initState).2).getLast? = some last := by
    cases hg : (attemptsOf (runLoop env target inTransaction (env.retryCount + 1) 0
        initState).2).getLast? with
    | none => exact absurd (List.getLast?_eq_none_iff.mp hg) hne
    | some x => exact ⟨x, rfl⟩
  have herr := hrl.2.2.2.2.1 last hlast
  have hmem := List.mem_of_mem_getLast? hlast
  obtain ⟨e, he⟩ := Option.isSome_iff_exists.mp (hrl.2.1 last hmem).2.2
  rw [hw]
  refine ⟨hrl.2.2.1, hrl.1, hrl.2.2.2.2.2.2, last, hlast, e, he, ?_⟩
  show NewShardError
    (runLoop env target inTransaction (env.retryCount + 1) 0 initState).1.err
    (some target) = _
  rw [herr, he]
  rfl

/-- Environment for the closed C1 instance: two healthy REPLICA tablets and
an inner function that always reports a retryable failure. -/
def envC1 : Env :=
  { env0 with
    healthy := fun _ => [⟨⟨"t1", "b", 0⟩, true⟩, ⟨⟨"t2", "a", 0⟩, true⟩],
    inner := fun _ => (true, some (.base .UNAVAILABLE "boom")),
    balancerPick := fun _ l => l.head? }

/-- Closed instance of C1: two healthy REPLICA tablets, every attempt
returns a retryable error; the dispatch attempts distinct tablets and
returns the last error wrapped with the target. -/
theorem withRetry_allRetry_spec_witness :
    ∃ last,
      (attemptsOf (withRetry envC1
        ⟨"ks", "0", TabletType.REPLICA⟩ false).trace).getLast? = some last ∧
      ∃ e, last.2.2 = some e ∧
        (withRetry envC1 ⟨"ks", "0", TabletType.REPLICA⟩ false).result =
          some (.wrap ("target: " ++ "ks" ++ "." ++ "0" ++ "." ++
            TabletType.REPLICA.lString) e) :=
  (withRetry_allRetry_spec envC1
    ⟨"ks", "0", TabletType.REPLICA⟩ false
    [⟨⟨"t1", "b", 0⟩, true⟩, ⟨⟨"t2", "a", 0⟩, true⟩]
    (by simp) (by simp [envC1, env0]) (fun _ => rfl) (by simp) (by decide)
    (by decide) (fun _ => rfl) (fun _ => ⟨rfl, rfl⟩)
    (by
      intro tgt l t h
      cases l with
      | nil => exact Option.noConfusion h
      | cons a as =>
        have h' : some a = some t := h
        injection h' with h'
        rw [← h']
        exact List.mem_cons_self a as)
    (by
      intro tgt l h
      cases l with
      | nil => exact absurd rfl h
      | cons a as => rfl)).2.2.2

/-- C10: with no keyspace event watcher (buffering disabled)
`GetServingKeyspaces` returns nil without consulting anything; with a
watcher present it returns exactly the watcher's serving keyspaces. -/
theorem GetServingKeyspaces_spec :
    GetServingKeyspaces none = none ∧
    ∀ k, GetServingKeyspaces (some k) = some k.servingKeyspaces :=
  ⟨rfl, fun _ => rfl⟩

end vtgate
